import Mathlib

/-!
Verification of the chapter-extraction and summarization core of an
EPUB-summarization program (source files `extract.py` and `summarize.py`).

Python strings are modelled as `List Char` (`Str`).  The Python string
primitives the code uses (`str.split`, `str.splitlines`, `str.strip`,
`str.lower`, substring membership, `re` searches used by the code) are
given explicit executable models below; Unicode-specific behaviour
(NFKD decomposition, the `\w` class of `re`) is modelled for the Latin
character repertoire that the program's keyword tables and inputs use.
-/

set_option maxRecDepth 100000
set_option maxHeartbeats 4000000

/-- Python `str`, modelled as a list of characters. -/
abbrev Str := List Char

/-- The whitespace characters recognised by Python's `str.split()` /
`str.strip()` / `\s` for the ASCII range. -/
def pyIsSpace (c : Char) : Bool :=
  c = ' ' || c = '\t' || c = '\n' || c = '\r' || c = '\x0b' || c = '\x0c'

/-- Python `str.strip()`. -/
def pyStrip (s : Str) : Str :=
  ((s.dropWhile pyIsSpace).reverse.dropWhile pyIsSpace).reverse

/-- Python `str.rstrip()`. -/
def pyRstrip (s : Str) : Str :=
  (s.reverse.dropWhile pyIsSpace).reverse

/-- Accented Latin letters used by the program's data (Spanish texts). -/
def accentedUpper : List (Char × Char) :=
  [('Á', 'á'), ('É', 'é'), ('Í', 'í'), ('Ó', 'ó'), ('Ú', 'ú'), ('Ñ', 'ñ'), ('Ü', 'ü')]

/-- Python `str.lower()`, for ASCII plus the accented letters above. -/
def pyLowerChar (c : Char) : Char :=
  match accentedUpper.lookup c with
  | some l => l
  | none => c.toLower

/-- Python `str.lower()` lifted to strings. -/
def pyLower (s : Str) : Str := s.map pyLowerChar

/-- Models `unicodedata.normalize("NFKD", ·)` followed by dropping combining
marks, for precomposed Latin letters: an accented letter decomposes into its
base letter plus a combining mark, which is then removed. -/
def stripDiacritic (c : Char) : Char :=
  match [('á', 'a'), ('é', 'e'), ('í', 'i'), ('ó', 'o'), ('ú', 'u'), ('ñ', 'n'), ('ü', 'u'),
         ('Á', 'A'), ('É', 'E'), ('Í', 'I'), ('Ó', 'O'), ('Ú', 'U'), ('Ñ', 'N'), ('Ü', 'U')].lookup c with
  | some b => b
  | none => c

/-- Run of `collapseWs`: `afterSpace` records whether the previous
character belonged to a whitespace run already replaced by one space. -/
def collapseWsGo (afterSpace : Bool) : Str → Str
  | [] => []
  | c :: rest =>
    if pyIsSpace c then
      if afterSpace then collapseWsGo true rest
      else ' ' :: collapseWsGo true rest
    else c :: collapseWsGo false rest

/-- Models `re.sub(r"\s+", " ", s)`: collapse every maximal whitespace run
to a single space. -/
def collapseWs (s : Str) : Str := collapseWsGo false s

/-- `_norm` from `extract.py`: strip, lowercase, NFKD-decompose and drop
combining marks, collapse whitespace. -/
def pyNorm (s : Str) : Str :=
  collapseWs ((pyLower (pyStrip s)).map stripDiacritic)

/-- Run of `pySplit`: `cur` accumulates the current word, reversed. -/
def pySplitGo (cur : Str) : Str → List Str
  | [] => if cur = [] then [] else [cur.reverse]
  | c :: rest =>
    if pyIsSpace c then
      if cur = [] then pySplitGo [] rest
      else cur.reverse :: pySplitGo [] rest
    else pySplitGo (c :: cur) rest

/-- Python `str.split()` (no argument): maximal runs of non-whitespace. -/
def pySplit (s : Str) : List Str := pySplitGo [] s

/-- Python `str.splitlines()` for `\n`-terminated text (the only line
terminator produced by the program's own text rendering): split on `'\n'`,
without a trailing empty line. -/
def pySplitlines (s : Str) : List Str :=
  if s = [] then []
  else
    let parts := s.splitOn '\n'
    if s.getLast? = some '\n' then parts.dropLast else parts

/-- The newline separator `"\n"` used by the `"\n".join(...)` calls. -/
def nlStr : Str := ['\n']

/-- Python `"sep".join(parts)`. -/
def pyJoin (sep : Str) (parts : List Str) : Str := List.intercalate sep parts

/-- Python substring test `needle in hay` (contiguous substring). -/
def strContains (hay needle : Str) : Bool :=
  if needle.isPrefixOf hay then true
  else
    match hay with
    | [] => false
    | _ :: rest => strContains rest needle

/-! ## `summarize.py` — disk cache -/

/-- The state of the cache directory: one entry per file, keyed by file
name, holding the file's text content (`summarize.py`, class `DiskCache`). -/
abbrev CacheState := List (Str × Str)

/-- The file name `f"{key}.txt"` used by `DiskCache.get`/`DiskCache.set`. -/
def cacheFileName (key : Str) : Str := key ++ ".txt".data

/-- `DiskCache.get`: return the file's content if the file exists, else `None`. -/
def diskCacheGet (cache : CacheState) (key : Str) : Option Str :=
  cache.lookup (cacheFileName key)

/-- `DiskCache.set`: (over)write the file for `key` with `value`. -/
def diskCacheSet (cache : CacheState) (key value : Str) : CacheState :=
  (cacheFileName key, value) :: cache.filter (fun p => decide (p.1 ≠ cacheFileName key))

/-- The cache-key material of `summarize_chapter`
(`f"{model}|{template_hash}|{title}|{stable_hash(text)}"`), with
`stable_hash` (a SHA-256 hex digest in the source) abstracted as a string
function `H`: collisions of SHA-256 are not modelled, matching the spec's
"no collisions intended". -/
def cacheKey (H : Str → Str) (model promptTemplate title text : Str) : Str :=
  H (model ++ "|".data ++ H promptTemplate ++ "|".data ++ title ++ "|".data ++ H text)

/-! ## `summarize.py` — chapter compression -/

/-- Run of `everyNth`: `skip` counts elements still to be skipped before
the next kept element. -/
def everyNthGo (n : Nat) : Nat → List α → List α
  | _, [] => []
  | 0, x :: rest => x :: everyNthGo n (n - 1) rest
  | skip + 1, _ :: rest => everyNthGo n skip rest

/-- Every `n`-th element of a list, Python `l[::n]` for `n ≥ 1`. -/
def everyNth (n : Nat) (l : List α) : List α := everyNthGo n 0 l

/-- `sample_middle` from `summarize.py`. -/
def sampleMiddle (text : Str) (every maxSamples minWords : Nat) : Str :=
  let paragraphs :=
    ((pySplitlines text).filter (fun p => minWords ≤ (pySplit p).length)).map pyStrip
  if paragraphs.length ≤ maxSamples then pyJoin nlStr paragraphs
  else pyJoin nlStr ((everyNth every paragraphs).take maxSamples)

/-- Python's `\w` (word character) for the character repertoire in use:
ASCII alphanumerics, underscore, and the accented Latin letters. -/
def pyWordChar (c : Char) : Bool :=
  c.isAlphanum || c = '_' || ['á', 'é', 'í', 'ó', 'ú', 'ñ', 'ü', 'Á', 'É', 'Í', 'Ó', 'Ú', 'Ñ', 'Ü'].contains c

/-- `re`'s `\b` holds before a word character at a position whose preceding
character (if any) is not a word character. -/
def boundaryBefore (prev : Option Char) : Bool :=
  match prev with
  | none => true
  | some c => !pyWordChar c

/-- `re`'s `\b` holds after a word character when the following text starts
with a non-word character or is empty. -/
def boundaryAfter (rest : Str) : Bool :=
  match rest with
  | [] => true
  | c :: _ => !pyWordChar c

/-- Whether `re.search(r"\b(1[6-9]\d{2}|20\d{2})\b", ·)` matches at the head
of the string (the leading `\b` is checked by the caller). -/
def matchYearHead : Str → Bool
  | a :: b :: c :: d :: rest =>
    ((a = '1' && ('6' ≤ b && b ≤ '9')) || (a = '2' && b = '0')) &&
      c.isDigit && d.isDigit && boundaryAfter rest
  | _ => false

/-- Scanner for `re.search(r"\b(1[6-9]\d{2}|20\d{2})\b", line)`. -/
def hasYearGo (prev : Option Char) : Str → Bool
  | [] => false
  | c :: rest =>
    (boundaryBefore prev && matchYearHead (c :: rest)) || hasYearGo (some c) rest

/-- `has_year` in `compress_chapter`. -/
def hasYear (s : Str) : Bool := hasYearGo none s

/-- Scanner for `re.search(r"\b\d+\b", line)`: a maximal digit run delimited
by word boundaries (shorter sub-runs end before a digit, which is a word
character, so only the maximal run can match). -/
def hasNumberGo (prev : Option Char) : Str → Bool
  | [] => false
  | c :: rest =>
    (c.isDigit && boundaryBefore prev && boundaryAfter (rest.dropWhile Char.isDigit)) ||
      hasNumberGo (some c) rest

/-- `has_number` in `compress_chapter`. -/
def hasNumber (s : Str) : Bool := hasNumberGo none s

/-- The character class `[A-ZÁÉÍÓÚÑ]`. -/
def upperProper (c : Char) : Bool :=
  ('A' ≤ c && c ≤ 'Z') || ['Á', 'É', 'Í', 'Ó', 'Ú', 'Ñ'].contains c

/-- The character class `[a-záéíóúñ]`. -/
def lowerProper (c : Char) : Bool :=
  ('a' ≤ c && c ≤ 'z') || ['á', 'é', 'í', 'ó', 'ú', 'ñ'].contains c

/-- Scanner for `re.search(r"\b[A-ZÁÉÍÓÚÑ][a-záéíóúñ]{2,}\b", line)`: an
uppercase letter at a word boundary followed by a maximal run of at least
two lowercase letters ending at a word boundary (shorter sub-runs end
before a lowercase letter, a word character, so only the maximal run can
match). -/
def hasProperGo (prev : Option Char) : Str → Bool
  | [] => false
  | c :: rest =>
    (upperProper c && boundaryBefore prev &&
        2 ≤ (rest.takeWhile lowerProper).length &&
        boundaryAfter (rest.dropWhile lowerProper)) ||
      hasProperGo (some c) rest

/-- `has_proper` in `compress_chapter`. -/
def hasProper (s : Str) : Bool := hasProperGo none s

/-- Truncation of an over-long signal line:
`line[:max_line_len].rstrip() + "…"` when the line exceeds the cap. -/
def truncSignalLine (maxLineLen : Nat) (line : Str) : Str :=
  if maxLineLen < line.length then pyRstrip (line.take maxLineLen) ++ "…".data
  else line

/-- The signal-line collection loop of `compress_chapter`: scan lines in
order, strip each; skip lines shorter than 60 characters; a line with a
year, a number run, or a capitalized word is kept (truncated to
`maxLineLen`); stop once `maxSignalLines` lines are collected. -/
def signalLinesGo (maxSignalLines maxLineLen : Nat) (acc : List Str) : List Str → List Str
  | [] => acc.reverse
  | ln :: rest =>
    let line := pyStrip ln
    if line.length < 60 then signalLinesGo maxSignalLines maxLineLen acc rest
    else
      let acc' :=
        if hasYear line || hasNumber line || hasProper line then
          truncSignalLine maxLineLen line :: acc
        else acc
      if maxSignalLines ≤ acc'.length then acc'.reverse
      else signalLinesGo maxSignalLines maxLineLen acc' rest

/-- The signal lines collected by `compress_chapter` for a text. -/
def signalLines (maxSignalLines maxLineLen : Nat) (text : Str) : List Str :=
  signalLinesGo maxSignalLines maxLineLen [] (pySplitlines text)

/-- `head = " ".join(words[:head_words])`. -/
def compressHead (words : List Str) (headWords : Nat) : Str :=
  pyJoin " ".data (words.take headWords)

/-- `tail = " ".join(words[-tail_words:])`.  Python's negative slice
`words[-0:]` is the whole list, hence the zero case. -/
def compressTail (words : List Str) (tailWords : Nat) : Str :=
  pyJoin " ".data (if tailWords = 0 then words else words.drop (words.length - tailWords))

/-- The section markers of the compressed chapter. -/
def inicioMark : Str := "[INICIO]".data

/-- Marker of the middle-sample section. -/
def medioMark : Str := "[MEDIO]".data

/-- Marker of the signal-lines section. -/
def senalesMark : Str := "[SEÑALES]".data

/-- Marker of the closing section. -/
def finalMark : Str := "[FINAL]".data

/-- `compress_chapter` from `summarize.py`. -/
def compressChapter (text : Str) (headWords tailWords maxSignalLines maxLineLen : Nat)
    (includeMiddle : Bool) : Str :=
  let words := pySplit text
  if words.length ≤ headWords + tailWords + 250 then text
  else
    let head := compressHead words headWords
    let tail := compressTail words tailWords
    let signal := pyJoin nlStr (signalLines maxSignalLines maxLineLen text)
    let middle := if includeMiddle then sampleMiddle text 12 8 40 else []
    let parts :=
      [inicioMark, head] ++
        (if middle = [] then [] else [[], medioMark, middle]) ++
        (if signal = [] then [] else [[], senalesMark, signal]) ++
        [[], finalMark, tail]
    pyJoin nlStr parts

/-! ## `summarize.py` — prompt rendering, retry, summarization -/

/-- The `\x7b` character. -/
def braceOpen : Char := Char.ofNat 123

/-- The `\x7d` character. -/
def braceClose : Char := Char.ofNat 125

/-- Run of `pyFormat`: `field` is `none` outside a replacement field and
`some acc` inside one, with the field name accumulated reversed. -/
def pyFormatGo (title text : Str) (field : Option Str) : Str → Str
  | [] => []
  | c :: rest =>
    match field with
    | none =>
      if c = braceOpen then pyFormatGo title text (some []) rest
      else c :: pyFormatGo title text none rest
    | some acc =>
      if c = braceClose then
        (if acc.reverse = "title".data then title
         else if acc.reverse = "text".data then text
         else []) ++ pyFormatGo title text none rest
      else pyFormatGo title text (some (c :: acc)) rest

/-- Python `template.format(title=..., text=...)` for templates whose only
replacement fields are `title` and `text` (as the spec requires of
templates): each field is replaced by the corresponding argument. -/
def pyFormat (title text : Str) (template : Str) : Str :=
  pyFormatGo title text none template

/-- `render_prompt` from `summarize.py`. -/
def renderPrompt (template title text : Str) : Str :=
  pyStrip (pyFormat title text template)

/-- The observable behaviour of one `call_llm_with_retry` run: its outcome
(`RuntimeError` wrapping the last underlying error on exhaustion), the
number of attempts made, and the sequence of back-off sleeps
(`base_sleep * 2 ** attempt`). -/
structure RetryTrace (E : Type) where
  result : Except (Option E) Str
  attempts : Nat
  sleeps : List ℚ

/-- The retry loop of `call_llm_with_retry`, with the generation call
modelled as an oracle `call` from the attempt number to an outcome.
`remaining` counts the attempts left out of `max_retries`. -/
def retryGo (call : Nat → Except E Str) (base : ℚ) :
    Nat → Nat → Option E → List ℚ → RetryTrace E
  | 0, attempt, lastErr, sleeps => ⟨.error lastErr, attempt, sleeps.reverse⟩
  | remaining + 1, attempt, lastErr, sleeps =>
    match call attempt with
    | .ok s => ⟨.ok s, attempt + 1, sleeps.reverse⟩
    | .error e =>
      retryGo call base remaining (attempt + 1) (some e) (base * 2 ^ attempt :: sleeps)

/-- `call_llm_with_retry` from `summarize.py` (trace semantics). -/
def callLlmWithRetry (call : Nat → Except E Str) (maxRetries : Nat) (base : ℚ) :
    RetryTrace E :=
  retryGo call base maxRetries 0 none []

/-- Result of one `summarize_chapter` call: the returned summary, the cache
state afterwards, and how many generation calls were performed. -/
structure SummaryOutcome where
  summary : Str
  cache : CacheState
  genCalls : Nat
deriving DecidableEq

/-- The cache-miss path of `summarize_chapter`: optionally compress, render
the prompt, call the generation client (modelled by the oracle `gen`,
mapping the prompt to the returned summary), store and return. -/
def summarizeGenerate (gen : Str → Str) (title text : Str) (compress : Bool)
    (cache : CacheState) (promptTemplate key : Str) : SummaryOutcome :=
  let text' := if compress then compressChapter text 320 320 18 220 true else text
  let prompt := renderPrompt promptTemplate title text'
  let summary := gen prompt
  ⟨summary, diskCacheSet cache key summary, 1⟩

/-- `summarize_chapter` from `summarize.py`.  `H` abstracts `stable_hash`;
`gen` abstracts a successful `call_llm_with_retry`.  The Python code tests
the cached value with `if cached:` — truthiness — so an empty cached string
falls through to the generation path. -/
def summarizeChapter (H : Str → Str) (gen : Str → Str) (title text : Str)
    (compress : Bool) (cache : CacheState) (model promptTemplate : Str) : SummaryOutcome :=
  let key := cacheKey H model promptTemplate title text
  match diskCacheGet cache key with
  | some cached =>
    if cached = [] then summarizeGenerate gen title text compress cache promptTemplate key
    else ⟨cached, cache, 0⟩
  | none => summarizeGenerate gen title text compress cache promptTemplate key

/-! ## `extract.py` — keyword tables -/

/-- `NON_CHAPTER_KEYWORDS` from `extract.py`. -/
def NON_CHAPTER_KEYWORDS : List Str :=
  ["cover".data, "portada".data,
   "title".data, "título".data, "titulo".data,
   "copyright".data, "derechos".data,
   "dedication".data, "dedicatoria".data,
   "epigraph".data, "epígrafe".data, "epigrafe".data,
   "preface".data, "prefacio".data,
   "foreword".data, "prólogo".data, "prologo".data,
   "introduction".data, "introducción".data, "introduccion".data,
   "acknowledgements".data, "acknowledgments".data, "agradecimientos".data,
   "contents".data, "table of contents".data, "Index".data, "índice".data,
   "indice".data, "sumario".data,
   "notes".data, "notas".data,
   "endnotes".data,
   "bibliography".data, "bibliografía".data, "bibliografia".data,
   "references".data, "referencias".data,
   "glossary".data, "glosario".data,
   "appendix".data, "apéndice".data, "apendice".data, "anexo".data,
   "afterword".data, "epílogo".data, "epilogo".data,
   "colophon".data, "colofón".data, "colofon".data,
   "credits".data, "créditos".data, "creditos".data,
   "reconocimientos".data]

/-- `TOC_KEYWORDS` from `extract.py`. -/
def TOC_KEYWORDS : List Str :=
  ["indice".data, "índice".data, "Index".data, "contents".data,
   "table of contents".data, "sumario".data]

/-- `NON_CHAPTER_PATH_HINTS` from `extract.py`, exactly as Python parses the
literal: the source list misses the comma after `"epígrafe"` and after
`"dedication"`, so Python's implicit string-literal concatenation produces
the single elements `"epígrafebibliograph"` and `"dedicationappendix"` in
place of the four separate hints `"epígrafe"`, `"bibliograph"`,
`"dedication"`, `"appendix"`. -/
def NON_CHAPTER_PATH_HINTS : List Str :=
  ["cover".data, "portada".data,
   "title".data, "titulo".data,
   "toc".data, "contents".data,
   "nav".data, "ncx".data,
   "copyright".data,
   "preface".data, "foreword".data, "introduction".data, "prologue".data, "epilogue".data,
   "acknowledg".data, "agrade".data, "epigraph".data, "epigrafe".data,
   "epígrafebibliograph".data, "bibliograf".data,
   "notes".data, "notas".data,
   "dedicationappendix".data, "apendice".data, "apéndice".data, "anexo".data,
   "glossary".data, "glosario".data, "reconocimientos".data]

/-! ## `extract.py` — classifier predicates -/

/-- `looks_like_non_chapter` from `extract.py`. -/
def looksLikeNonChapter (title : Str) : Bool :=
  NON_CHAPTER_KEYWORDS.any (fun kw => strContains (pyNorm title) (pyNorm kw))

/-- `looks_like_non_chapter_path` from `extract.py`: the hints are matched
against `f"{_norm(href)} {_norm(idref)}"`. -/
def looksLikeNonChapterPath (href idref : Str) : Bool :=
  NON_CHAPTER_PATH_HINTS.any
    (fun hint => strContains (pyNorm href ++ " ".data ++ pyNorm idref) (pyNorm hint))

/-- The non-blank stripped lines of a text
(`[ln.strip() for ln in text.splitlines() if ln.strip()]`). -/
def nonBlankLines (text : Str) : List Str :=
  ((pySplitlines text).map pyStrip).filter (fun ln => decide (ln ≠ []))

/-- `looks_like_toc` from `extract.py`. -/
def looksLikeToc (text : Str) : Bool :=
  if text = [] then false
  else
    let lines := nonBlankLines text
    if lines = [] then false
    else
      let topNorm := pyNorm (pyJoin nlStr (lines.take 60))
      let hasTocWord := TOC_KEYWORDS.any (fun k => strContains topNorm (pyNorm k))
      if !hasTocWord then false
      else
        let dotLeaders :=
          ((lines.take 300).filter (fun ln => strContains ln (List.replicate 8 '.'))).length
        let numericOnly :=
          ((lines.take 300).filter
            (fun ln => ln.all Char.isDigit && 1 ≤ ln.length && ln.length ≤ 4)).length
        8 ≤ dotLeaders && 8 ≤ numericOnly

/-- The copyright-heuristic keyword list of `looks_like_copyright_or_imprint`.
Note `"deposito legal"` and `"depósito legal"` are distinct entries that
normalize to the same string. -/
def copyrightKeywords : List Str :=
  ["reservados todos los derechos".data,
   "copyright".data,
   "isbn".data,
   "deposito legal".data,
   "depósito legal".data,
   "impreso en".data,
   "printed in".data,
   "editorial".data,
   "derechos".data]

/-- The scanned region of `looks_like_copyright_or_imprint`:
`_norm("\n".join([ln.strip() for ln in text.splitlines()[:80] if ln.strip()]))`
— note the slice `[:80]` is applied to the raw lines, before blank lines
are dropped. -/
def copyrightTop (text : Str) : Str :=
  pyNorm (pyJoin nlStr
    (((pySplitlines text).take 80).map pyStrip |>.filter (fun ln => decide (ln ≠ []))))

/-- `looks_like_copyright_or_imprint` from `extract.py`: at least two hits
over the keyword list (counted per list entry). -/
def looksLikeCopyrightOrImprint (text : Str) : Bool :=
  2 ≤ copyrightKeywords.countP (fun k => strContains (copyrightTop text) (pyNorm k))

/-- `should_include_chapter` from `extract.py`. -/
def shouldIncludeChapter (title text href idref : Str) (minWords : Nat) : Bool :=
  if (pySplit text).length < minWords then false
  else if looksLikeNonChapter title then false
  else if looksLikeNonChapterPath href idref then false
  else true

/-! ## `extract.py` — paths, container locator -/

/-- The component processing of `posixpath.normpath`. -/
def normpathComps (initialSlashes : Nat) (comps : List Str) : List Str :=
  comps.foldl
    (fun newComps comp =>
      if comp = [] ∨ comp = ".".data then newComps
      else if comp ≠ "..".data ∨ (initialSlashes = 0 ∧ newComps = []) ∨
          newComps.getLast? = some "..".data then
        newComps ++ [comp]
      else if newComps ≠ [] then newComps.dropLast
      else newComps)
    []

/-- `posixpath.normpath`. -/
def posixNormpath (p : Str) : Str :=
  if p = [] then ".".data
  else
    let initialSlashes : Nat :=
      if p.take 2 = "//".data ∧ p.take 3 ≠ "///".data then 2
      else if p.take 1 = "/".data then 1
      else 0
    let comps := normpathComps initialSlashes (p.splitOn '/')
    let joined := List.replicate initialSlashes '/' ++ pyJoin "/".data comps
    if joined = [] then ".".data else joined

/-- `posixpath.join` for the two-argument case used in `_join_epub_path`. -/
def posixJoin (a b : Str) : Str :=
  if b.take 1 = "/".data then b
  else if a = [] ∨ a.getLast? = some '/' then a ++ b
  else a ++ "/".data ++ b

/-- `_join_epub_path` from `extract.py`. -/
def joinEpubPath (baseDir href : Str) : Str :=
  if baseDir = [] then href else posixNormpath (posixJoin baseDir href)

/-- `posixpath.dirname`/`os.path.basename`-style basename: the part after
the last `'/'`. -/
def posixBasename (p : Str) : Str :=
  (p.reverse.takeWhile (fun c => decide (c ≠ '/'))).reverse

/-- The parse outcome of `META-INF/container.xml`: the file can be
malformed XML (`etree.fromstring` raises), or parse to a document whose
first `rootfile` element's `full-path` attribute is the given optional
string. -/
inductive ContainerDoc where
  | malformed : ContainerDoc
  | parsed : Option Str → ContainerDoc
deriving DecidableEq

/-- The part of a zip archive that `_parse_container_for_opf_path` sees:
its name list and the parse outcome of `META-INF/container.xml` (relevant
only when that name is present). -/
structure ZipArchive where
  namelist : List Str
  containerDoc : ContainerDoc
deriving DecidableEq

/-- The fixed path of the container-metadata file. -/
def containerPath : Str := "META-INF/container.xml".data

/-- The fixed fallback candidate list of `_parse_container_for_opf_path`. -/
def opfCandidates : List Str :=
  ["content.opf".data, "OEBPS/content.opf".data, "OPS/content.opf".data]

/-- Outcome of `_parse_container_for_opf_path`: the OPF path, an uncaught
XML parse error (only `KeyError` is caught by the `except` clause), or the
terminal `ValueError` when nothing is found. -/
inductive OpfLocation where
  | found : Str → OpfLocation
  | xmlError : OpfLocation
  | descriptorNotFound : OpfLocation
deriving DecidableEq

/-- `_parse_container_for_opf_path` from `extract.py`.  Reading an absent
member raises `KeyError`, which is caught and leads to the fallback scan;
a malformed container file raises an XML parse error, which the
`except KeyError` clause does not catch. -/
def parseContainerForOpfPath (zf : ZipArchive) : OpfLocation :=
  let fallback :=
    match opfCandidates.find? (fun c => decide (c ∈ zf.namelist)) with
    | some c => .found c
    | none => .descriptorNotFound
  if containerPath ∈ zf.namelist then
    match zf.containerDoc with
    | .malformed => .xmlError
    | .parsed none => fallback
    | .parsed (some p) => if p = [] then fallback else .found p
  else fallback

/-! ## `extract.py` — extraction orchestrator -/

/-- `Chapter` from `extract.py`. -/
structure Chapter where
  idref : Str
  href : Str
  title : Str
  text : Str
deriving DecidableEq

/-- A manifest item (id excluded; the manifest maps ids to these). -/
structure ManifestItem where
  href : Str
  mediaType : Str
deriving DecidableEq

/-- What the orchestrator derives from one content file of the archive,
with the external HTML parsing (BeautifulSoup) abstracted: the plain text
rendered by `_html_to_text`, the heading found by
`_extract_display_title_from_body`, and the `<title>` element text. -/
structure ContentFile where
  text : Str
  bodyTitle : Option Str
  titleTag : Option Str
deriving DecidableEq

/-- The inputs of the spine-walking loop of `extract_chapters`, after the
OPF has been parsed: the OPF directory, the spine id order, the manifest,
the archive's files (keys are archive-internal paths), and the NCX
title map. -/
structure EpubData where
  opfDir : Str
  spineIds : List Str
  manifest : List (Str × ManifestItem)
  files : List (Str × ContentFile)
  tocTitleMap : List (Str × Str)

/-- Python truthiness filter on an optional string: `None` and `""` are
falsy. -/
def truthyOpt (o : Option Str) : Option Str :=
  match o with
  | some s => if s = [] then none else some s
  | none => none

/-- The title fallback chain of `extract_chapters`: NCX TOC label, body
heading, `<title>` element, then `idref or os.path.basename(path)`. -/
def resolveTitle (e : EpubData) (path : Str) (f : ContentFile) (idref : Str) : Str :=
  match truthyOpt (e.tocTitleMap.lookup path) with
  | some t => t
  | none =>
    match truthyOpt f.bodyTitle with
    | some t => t
    | none =>
      match truthyOpt f.titleTag with
      | some t => t
      | none => if idref = [] then posixBasename path else idref

/-- The media types kept by the spine loop. -/
def documentMediaTypes : List Str := ["application/xhtml+xml".data, "text/html".data]

/-- The spine-walking loop of `extract_chapters`: for each spine id in
order, look up the manifest item, keep only HTML/XHTML documents present in
the archive, resolve the title, then skip TOC-like documents,
copyright/imprint pages, and items the classifier rejects; accepted items
become `Chapter`s in spine order. -/
def extractChaptersGo (e : EpubData) (minWords : Nat) : List Str → List Chapter
  | [] => []
  | idref :: rest =>
    match e.manifest.lookup idref with
    | none => extractChaptersGo e minWords rest
    | some item =>
      if ¬ documentMediaTypes.contains (pyLower item.mediaType) then
        extractChaptersGo e minWords rest
      else
        let path := joinEpubPath e.opfDir item.href
        match e.files.lookup path with
        | none => extractChaptersGo e minWords rest
        | some f =>
          let text := f.text
          let title := resolveTitle e path f idref
          if looksLikeToc text then extractChaptersGo e minWords rest
          else if looksLikeCopyrightOrImprint text then extractChaptersGo e minWords rest
          else if shouldIncludeChapter title text path idref minWords then
            ⟨idref, path, title, text⟩ :: extractChaptersGo e minWords rest
          else extractChaptersGo e minWords rest

/-- `extract_chapters` from `extract.py` (the chapter list it returns). -/
def extractChapters (e : EpubData) (minWords : Nat) : List Chapter :=
  extractChaptersGo e minWords e.spineIds

/-! ## Concrete inputs used by counterexamples and witnesses -/

/-- A generation-client oracle that always returns the empty summary
(e.g. the endpoint's `response` field was whitespace, stripped to `""`). -/
def emptyGen : Str → Str := fun _ => []

/-- A 253-word single-line text (all words `"a"`). -/
def c2Text : Str := List.intercalate " ".data (List.replicate 253 "a".data)

/-- An archive holding a malformed `META-INF/container.xml` next to a
conventional `content.opf`. -/
def c4Zip : ZipArchive := ⟨[containerPath, "content.opf".data], .malformed⟩

/-- A six-word text with no disqualifying keywords. -/
def c7Text : Str := "seis palabras de contenido real aqui".data

/-- A text consisting of the single line `depósito legal`. -/
def c8Text : Str := "depósito legal".data

/-- A one-item archive: one spine entry, an XHTML manifest item whose file
holds a five-word text, no NCX titles. -/
def c6Epub : EpubData :=
  { opfDir := []
    spineIds := ["c1".data]
    manifest := [("c1".data, ⟨"c1.html".data, "application/xhtml+xml".data⟩)]
    files := [("c1.html".data, ⟨"hola mundo de texto real".data, none, none⟩)]
    tocTitleMap := [] }

/-- Modelled from the spec claim C8, for comparison with the code: the
fixed keyword set named by the claim — copyright, isbn, legal deposit,
printed in, publisher/imprint markers, rights-reserved phrasing — as
distinct normalized keywords (the normalized image of the code's list,
without duplicates). -/
def specCopyrightKeywordSet : List Str :=
  ["reservados todos los derechos".data,
   "copyright".data,
   "isbn".data,
   "deposito legal".data,
   "impreso en".data,
   "printed in".data,
   "editorial".data,
   "derechos".data]

/-- Modelled from the spec claim C8: how many distinct keywords of the
fixed set appear among the first 80 non-blank lines of the text, after
normalization. -/
def specCopyrightHits (text : Str) : Nat :=
  specCopyrightKeywordSet.countP
    (fun k => strContains (pyNorm (pyJoin nlStr ((nonBlankLines text).take 80))) k)

/-! ## Cache lemmas -/

/-- Looking up a key in a filtered association list that drops a different
file name is the same as looking it up in the original list. -/
theorem lookup_filter_ne (l : List (Str × Str)) (m n : Str) (h : m ≠ n) :
    (l.filter (fun p => decide (p.1 ≠ n))).lookup m = l.lookup m := by
  induction l with
  | nil => rfl
  | cons a l ih =>
    obtain ⟨k, b⟩ := a
    by_cases hk : k = n
    · subst hk
      simp [List.filter, List.lookup, beq_false_of_ne h]
      simpa using ih
    · by_cases hmk : m = k
      · subst hmk
        simp [List.filter, List.lookup, hk]
      · simp [List.filter, List.lookup, hk, beq_false_of_ne hmk]
        simpa using ih

/-- `cacheFileName` is injective. -/
theorem cacheFileName_injective (k k' : Str) (h : cacheFileName k = cacheFileName k') :
    k = k' :=
  List.append_cancel_right h

/-- Reading back the key just written returns the written value. -/
theorem diskCacheGet_set_self (cache : CacheState) (k v : Str) :
    diskCacheGet (diskCacheSet cache k v) k = some v := by
  simp [diskCacheGet, diskCacheSet, List.lookup]

/-- Writing one key does not change what another key reads. -/
theorem diskCacheGet_set_other (cache : CacheState) (k k' v : Str) (h : k ≠ k') :
    diskCacheGet (diskCacheSet cache k' v) k = diskCacheGet cache k := by
  have hne : cacheFileName k ≠ cacheFileName k' :=
    fun hc => h (cacheFileName_injective _ _ hc)
  simp only [diskCacheGet, diskCacheSet, List.lookup, beq_false_of_ne hne]
  exact lookup_filter_ne cache (cacheFileName k) (cacheFileName k') hne

/-- Claim C10: for every key and values, after `DiskCache.set(key, v1)`,
`get(key)` returns `v1`; after a subsequent `set(key, v2)`, `get(key)`
returns `v2` (last write wins — the store does not enforce immutability);
and `get` returns `None` for a key that was never set (the empty store
yields `None`, and writes to other keys do not affect a key's read). -/
theorem disk_cache_get_set (cache : CacheState) (k k' v₁ v₂ v' : Str) :
    diskCacheGet (diskCacheSet cache k v₁) k = some v₁ ∧
    diskCacheGet (diskCacheSet (diskCacheSet cache k v₁) k v₂) k = some v₂ ∧
    diskCacheGet ([] : CacheState) k = none ∧
    (k ≠ k' → diskCacheGet (diskCacheSet cache k' v') k = diskCacheGet cache k) := by
  refine ⟨diskCacheGet_set_self _ _ _, diskCacheGet_set_self _ _ _, rfl, ?_⟩
  intro h
  exact diskCacheGet_set_other cache k k' v' h

/-- Witness for C10 at concrete keys and values. -/
theorem disk_cache_get_set_witness :
    diskCacheGet (diskCacheSet [] "k".data "v1".data) "k".data = some "v1".data ∧
    diskCacheGet (diskCacheSet (diskCacheSet [] "k".data "v1".data) "k".data "v2".data)
      "k".data = some "v2".data ∧
    diskCacheGet ([] : CacheState) "k".data = none ∧
    diskCacheGet (diskCacheSet [] "j".data "w".data) "k".data =
      diskCacheGet ([] : CacheState) "k".data := by
  have h := disk_cache_get_set [] "k".data "j".data "v1".data "v2".data "w".data
  exact ⟨h.1, h.2.1, h.2.2.1, h.2.2.2 (by decide)⟩

/-- Claim C1 counterexample: with a generation client whose summary is the
empty string, two calls of `summarize_chapter` on identical inputs against
the same cache perform two generation calls, not one — `if cached:` treats
the cached empty summary as a miss. -/
theorem summarize_twice_empty_counterexample :
    (summarizeChapter id emptyGen "a".data "b".data false [] "m".data "t".data).genCalls +
      (summarizeChapter id emptyGen "a".data "b".data false
        (summarizeChapter id emptyGen "a".data "b".data false [] "m".data "t".data).cache
        "m".data "t".data).genCalls = 2 := by decide

/-- Claim C1 (amended): if the cache has no entry for the key and the
generation client returns a non-empty summary, calling `summarize_chapter`
twice with identical `(model, promptTemplate, title, text)` against the
same cache performs exactly one generation call in total, and the second
call returns the stored value with the cache unchanged. -/
theorem summarize_twice_one_generation (H : Str → Str) (gen : Str → Str)
    (title text : Str) (compress : Bool) (cache : CacheState) (model tmpl : Str)
    (hmiss : diskCacheGet cache (cacheKey H model tmpl title text) = none)
    (hgen : ∀ p, gen p ≠ []) :
    (summarizeChapter H gen title text compress cache model tmpl).genCalls +
      (summarizeChapter H gen title text compress
        (summarizeChapter H gen title text compress cache model tmpl).cache
        model tmpl).genCalls = 1 ∧
    (summarizeChapter H gen title text compress
        (summarizeChapter H gen title text compress cache model tmpl).cache
        model tmpl).summary =
      (summarizeChapter H gen title text compress cache model tmpl).summary ∧
    (summarizeChapter H gen title text compress
        (summarizeChapter H gen title text compress cache model tmpl).cache
        model tmpl).cache =
      (summarizeChapter H gen title text compress cache model tmpl).cache := by
  have h1 : summarizeChapter H gen title text compress cache model tmpl =
      summarizeGenerate gen title text compress cache tmpl
        (cacheKey H model tmpl title text) := by
    simp only [summarizeChapter, hmiss]
  set key := cacheKey H model tmpl title text with hkey
  set s := gen (renderPrompt tmpl title
    (if compress then compressChapter text 320 320 18 220 true else text)) with hs
  have h1' : summarizeChapter H gen title text compress cache model tmpl =
      ⟨s, diskCacheSet cache key s, 1⟩ := by
    rw [h1]; rfl
  have hget : diskCacheGet (diskCacheSet cache key s) key = some s :=
    diskCacheGet_set_self _ _ _
  have h2 : summarizeChapter H gen title text compress
      (diskCacheSet cache key s) model tmpl = ⟨s, diskCacheSet cache key s, 0⟩ := by
    simp only [summarizeChapter, ← hkey, hget]
    rw [if_neg (hgen _)]
  rw [h1']
  simp only [h2]
  exact ⟨trivial, trivial, trivial⟩

/-- Witness for C1 (amended) at concrete inputs. -/
theorem summarize_twice_one_generation_witness :
    diskCacheGet ([] : CacheState)
        (cacheKey id "m".data "t".data "a".data "b".data) = none ∧
    (summarizeChapter id (fun _ => "ok".data) "a".data "b".data false [] "m".data
        "t".data).genCalls +
      (summarizeChapter id (fun _ => "ok".data) "a".data "b".data false
        (summarizeChapter id (fun _ => "ok".data) "a".data "b".data false [] "m".data
          "t".data).cache "m".data "t".data).genCalls = 1 := by
  refine ⟨by decide, ?_⟩
  exact (summarize_twice_one_generation id (fun _ => "ok".data) "a".data "b".data false
    [] "m".data "t".data (by decide) (fun _ => List.cons_ne_nil _ _)).1

/-- Claim C3: the cache key is a (deterministic) function of the four
inputs, and — under the spec's collision-freeness assumption on the
cryptographic hash, modelled as injectivity of `H` — changing any one of
model, prompt-template content, title, or text while holding the other
three fixed yields a different key. -/
theorem cache_key_sensitivity (H : Str → Str) (hinj : Function.Injective H) :
    (∀ m m' tmpl title text, m ≠ m' →
        cacheKey H m tmpl title text ≠ cacheKey H m' tmpl title text) ∧
    (∀ m tmpl tmpl' title text, tmpl ≠ tmpl' →
        cacheKey H m tmpl title text ≠ cacheKey H m tmpl' title text) ∧
    (∀ m tmpl title title' text, title ≠ title' →
        cacheKey H m tmpl title text ≠ cacheKey H m tmpl title' text) ∧
    (∀ m tmpl title text text', text ≠ text' →
        cacheKey H m tmpl title text ≠ cacheKey H m tmpl title text') := by
  refine ⟨?_, ?_, ?_, ?_⟩
  · intro m m' tmpl title text hne heq
    have h := hinj heq
    simp only [List.append_assoc] at h
    exact hne (List.append_cancel_right h)
  · intro m tmpl tmpl' title text hne heq
    have h := hinj heq
    simp only [List.append_assoc] at h
    have h := List.append_cancel_left h
    have h := List.append_cancel_left h
    exact hne (hinj (List.append_cancel_right h))
  · intro m tmpl title title' text hne heq
    have h := hinj heq
    simp only [List.append_assoc] at h
    have h := List.append_cancel_left h
    have h := List.append_cancel_left h
    have h := List.append_cancel_left h
    have h := List.append_cancel_left h
    exact hne (List.append_cancel_right h)
  · intro m tmpl title text text' hne heq
    have h := hinj heq
    simp only [List.append_assoc] at h
    have h := List.append_cancel_left h
    have h := List.append_cancel_left h
    have h := List.append_cancel_left h
    have h := List.append_cancel_left h
    have h := List.append_cancel_left h
    have h := List.append_cancel_left h
    exact hne (hinj h)

/-- Witness for C3 at concrete inputs, with the injective hash `id`. -/
theorem cache_key_sensitivity_witness :
    cacheKey id "m".data "t".data "ti".data "te".data ≠
      cacheKey id "n".data "t".data "ti".data "te".data ∧
    cacheKey id "m".data "t".data "ti".data "te".data ≠
      cacheKey id "m".data "u".data "ti".data "te".data ∧
    cacheKey id "m".data "t".data "ti".data "te".data ≠
      cacheKey id "m".data "t".data "tj".data "te".data ∧
    cacheKey id "m".data "t".data "ti".data "te".data ≠
      cacheKey id "m".data "t".data "ti".data "tf".data := by
  have h := cache_key_sensitivity id (fun a b hab => hab)
  exact ⟨h.1 "m".data "n".data "t".data "ti".data "te".data (by decide),
    h.2.1 "m".data "t".data "u".data "ti".data "te".data (by decide),
    h.2.2.1 "m".data "t".data "ti".data "tj".data "te".data (by decide),
    h.2.2.2 "m".data "t".data "ti".data "te".data "tf".data (by decide)⟩

/-- Mapping over `range'` of successor length, unfolded one step. -/
theorem map_range'_succ (f : Nat → ℚ) (s n : Nat) :
    (List.range' s (n + 1)).map f = f s :: (List.range' (s + 1) n).map f := by
  rw [List.range'_succ]
  rfl

/-- When every call in the window `[a, a + r)` fails, the retry loop makes
all `r` remaining attempts, sleeps `base * 2 ^ i` after each, and ends with
an error wrapping the last underlying error. -/
theorem retryGo_exhaust (call : Nat → Except E Str) (base : ℚ) (e : Nat → E) :
    ∀ (r a : Nat) (lastErr : Option E) (sleeps : List ℚ), 0 < r →
      (∀ i, a ≤ i → i < a + r → call i = .error (e i)) →
      retryGo call base r a lastErr sleeps =
        ⟨.error (some (e (a + r - 1))), a + r,
         sleeps.reverse ++ (List.range' a r).map (fun i => base * 2 ^ i)⟩ := by
  intro r
  induction r with
  | zero => intro a lastErr sleeps hr; omega
  | succ n ih =>
    intro a lastErr sleeps _ hcall
    rw [retryGo, hcall a (Nat.le_refl a) (by omega)]
    show retryGo call base n (a + 1) (some (e a)) (base * 2 ^ a :: sleeps) = _
    cases n with
    | zero =>
      simp [retryGo, List.range'_succ]
    | succ m =>
      rw [ih (a + 1) (some (e a)) (base * 2 ^ a :: sleeps) (Nat.succ_pos m)
        (fun i h1 h2 => hcall i (by omega) (by omega))]
      have harith : a + 1 + (m + 1) = a + (m + 1 + 1) := by omega
      have harith2 : a + 1 + (m + 1) - 1 = a + (m + 1 + 1) - 1 := by omega
      simp only [harith, harith2, RetryTrace.mk.injEq, true_and]
      rw [map_range'_succ, map_range'_succ, map_range'_succ]
      simp [List.append_assoc]

/-- Claim C9: when every underlying generation call fails, the retry
wrapper makes exactly `maxRetries` attempts, sleeping `base * 2 ^ attempt`
after each failed attempt, and then raises a single terminal error
wrapping the last underlying error (no partial result, no swallowed
failure). -/
theorem retry_exhaustion (call : Nat → Except E Str) (maxRetries : Nat) (base : ℚ)
    (e : Nat → E) (hfail : ∀ i, i < maxRetries → call i = .error (e i))
    (hpos : 0 < maxRetries) :
    callLlmWithRetry call maxRetries base =
      ⟨.error (some (e (maxRetries - 1))), maxRetries,
       (List.range maxRetries).map (fun i => base * 2 ^ i)⟩ := by
  rw [callLlmWithRetry, retryGo_exhaust call base e maxRetries 0 none [] hpos
    (fun i _ h2 => hfail i (by omega))]
  simp [List.range_eq_range']

/-- Witness for C9: a client that always fails, `maxRetries = 4`,
`base = 2`. -/
theorem retry_exhaustion_witness :
    (callLlmWithRetry (fun i => Except.error i) 4 2).result = .error (some 3) ∧
    (callLlmWithRetry (fun i => Except.error i) 4 2).attempts = 4 ∧
    (callLlmWithRetry (fun i => Except.error i) 4 2).sleeps = [2, 4, 8, 16] := by
  have h := retry_exhaustion (fun i => Except.error i) 4 2 (fun i => i)
    (fun i _ => rfl) (by decide)
  rw [h]
  refine ⟨rfl, rfl, ?_⟩
  simp [List.range_succ]
  norm_num

/-- Claim C4 counterexample: an archive whose container-metadata file is
present but unparsable, with `content.opf` present, makes the locator
propagate the XML parse error instead of falling back: the `except` clause
catches only `KeyError` (absent member), not parse errors. -/
theorem container_unparsable_no_fallback :
    parseContainerForOpfPath c4Zip = .xmlError ∧
    parseContainerForOpfPath c4Zip ≠ .found "content.opf".data := by decide

/-- Claim C4 (amended): if the container-metadata file is absent — or
present and parsed but without a usable root-file path — the locator falls
back to the fixed candidate list, returning the first candidate present in
the archive and failing with the descriptor-not-found error only when none
is present; but if the file is present and unparsable, the XML parse error
propagates and no fallback happens. -/
theorem container_locator_fallback (zf : ZipArchive) (c : Str) :
    (containerPath ∉ zf.namelist ∨ zf.containerDoc = .parsed none →
      (opfCandidates.find? (fun p => decide (p ∈ zf.namelist)) = some c →
          parseContainerForOpfPath zf = .found c) ∧
      (opfCandidates.find? (fun p => decide (p ∈ zf.namelist)) = none →
          parseContainerForOpfPath zf = .descriptorNotFound)) ∧
    (containerPath ∈ zf.namelist → zf.containerDoc = .malformed →
      parseContainerForOpfPath zf = .xmlError) := by
  constructor
  · intro hcase
    constructor
    · intro hfind
      rcases hcase with habs | hdoc
      · simp [parseContainerForOpfPath, habs, hfind]
      · simp only [parseContainerForOpfPath, hdoc, hfind]
        split
        · rfl
        · rfl
    · intro hfind
      rcases hcase with habs | hdoc
      · simp [parseContainerForOpfPath, habs, hfind]
      · simp only [parseContainerForOpfPath, hdoc, hfind]
        split
        · rfl
        · rfl
  · intro hmem hdoc
    simp [parseContainerForOpfPath, hmem, hdoc]

/-- Witness for C4 (amended) at concrete archives. -/
theorem container_locator_fallback_witness :
    parseContainerForOpfPath ⟨["OEBPS/content.opf".data], .parsed none⟩ =
      .found "OEBPS/content.opf".data ∧
    parseContainerForOpfPath ⟨([] : List Str), .parsed none⟩ = .descriptorNotFound ∧
    parseContainerForOpfPath ⟨[containerPath], .malformed⟩ = .xmlError := by
  refine ⟨?_, ?_, ?_⟩
  · exact ((container_locator_fallback ⟨["OEBPS/content.opf".data], .parsed none⟩
      "OEBPS/content.opf".data).1 (Or.inl (by decide))).1 (by decide)
  · exact ((container_locator_fallback ⟨([] : List Str), .parsed none⟩ ([] : Str)).1
      (Or.inl (by decide))).2 (by decide)
  · exact (container_locator_fallback ⟨[containerPath], .malformed⟩ ([] : Str)).2
      (by decide) rfl

/-- The chapters produced from a suffix of the spine carry idrefs that form
a sublist (subsequence in order) of that suffix. -/
theorem extractChaptersGo_sublist (e : EpubData) (minWords : Nat) :
    ∀ l : List Str, List.Sublist ((extractChaptersGo e minWords l).map Chapter.idref) l := by
  intro l
  induction l with
  | nil => simp [extractChaptersGo]
  | cons idref rest ih =>
    rw [extractChaptersGo]
    cases hm : e.manifest.lookup idref with
    | none => exact ih.cons _
    | some item =>
      dsimp only
      split
      · exact ih.cons _
      · cases hf : e.files.lookup (joinEpubPath e.opfDir item.href) with
        | none => exact ih.cons _
        | some f =>
          dsimp only
          split
          · exact ih.cons _
          · split
            · exact ih.cons _
            · split
              · simpa using ih.cons₂ idref
              · exact ih.cons _

/-- Claim C5: the idref sequence of the extracted chapter list is a
subsequence of the spine's idref sequence in the same relative order —
the spine walk only filters, it never reorders or duplicates. -/
theorem extract_preserves_spine_order (e : EpubData) (minWords : Nat) :
    List.Sublist ((extractChapters e minWords).map Chapter.idref) e.spineIds :=
  extractChaptersGo_sublist e minWords e.spineIds

/-- Splitting the empty string yields no words. -/
theorem pySplit_nil : pySplit [] = [] := rfl

/-- A chapter in the extracted list passed the classifier. -/
theorem mem_extractChaptersGo (e : EpubData) (minWords : Nat) :
    ∀ (l : List Str) (ch : Chapter), ch ∈ extractChaptersGo e minWords l →
      shouldIncludeChapter ch.title ch.text ch.href ch.idref minWords = true := by
  intro l
  induction l with
  | nil => intro ch h; simp [extractChaptersGo] at h
  | cons idref rest ih =>
    intro ch h
    rw [extractChaptersGo] at h
    cases hm : e.manifest.lookup idref with
    | none => rw [hm] at h; exact ih ch h
    | some item =>
      rw [hm] at h
      dsimp only at h
      split at h
      · exact ih ch h
      · cases hf : e.files.lookup (joinEpubPath e.opfDir item.href) with
        | none => rw [hf] at h; exact ih ch h
        | some f =>
          rw [hf] at h
          dsimp only at h
          split at h
          · exact ih ch h
          · split at h
            · exact ih ch h
            · split at h
              · rcases List.mem_cons.mp h with hc | hc
                · subst hc
                  assumption
                · exact ih ch hc
              · exact ih ch h

/-- Accepted text has at least `minWords` words, and is non-empty once
`minWords` is positive. -/
theorem shouldInclude_word_bound (title text href idref : Str) (minWords : Nat)
    (h : shouldIncludeChapter title text href idref minWords = true) :
    minWords ≤ (pySplit text).length ∧ (0 < minWords → text ≠ []) := by
  have hwc : ¬ (pySplit text).length < minWords := by
    intro hlt
    rw [shouldIncludeChapter, if_pos hlt] at h
    exact Bool.false_ne_true h
  constructor
  · omega
  · intro hpos htext
    subst htext
    rw [pySplit_nil] at hwc
    simp at hwc
    omega

/-- Claim C6: the classifier rejects every item whose text has fewer than
`minWords` words (in particular exactly `minWords - 1`); it accepts an item
with exactly `minWords` words and no disqualifying title keywords or path
hints; consequently every accepted chapter — both at the classifier and in
the extracted list — has at least `minWords` words, and non-empty text
whenever `minWords` is positive. -/
theorem classifier_boundary (title text href idref : Str) (minWords : Nat) :
    ((pySplit text).length < minWords →
      shouldIncludeChapter title text href idref minWords = false) ∧
    ((pySplit text).length = minWords → looksLikeNonChapter title = false →
      looksLikeNonChapterPath href idref = false →
      shouldIncludeChapter title text href idref minWords = true) ∧
    (shouldIncludeChapter title text href idref minWords = true →
      minWords ≤ (pySplit text).length ∧ (0 < minWords → text ≠ [])) ∧
    (∀ (e : EpubData) (ch : Chapter), ch ∈ extractChapters e minWords →
      minWords ≤ (pySplit ch.text).length ∧ (0 < minWords → ch.text ≠ [])) := by
  refine ⟨?_, ?_, ?_, ?_⟩
  · intro hlt
    rw [shouldIncludeChapter, if_pos hlt]
  · intro heq htitle hpath
    rw [shouldIncludeChapter, if_neg (by omega), htitle, hpath]
    simp
  · exact shouldInclude_word_bound title text href idref minWords
  · intro e ch hch
    exact shouldInclude_word_bound ch.title ch.text ch.href ch.idref minWords
      (mem_extractChaptersGo e minWords e.spineIds ch hch)

/-- Witness for C6 at concrete inputs: a 2-word text is rejected at
`minWords = 3` and accepted at `minWords = 2`; a concrete archive's single
accepted chapter satisfies the word bound. -/
theorem classifier_boundary_witness :
    shouldIncludeChapter "Algo".data "aa b".data "x.html".data "c1".data 3 = false ∧
    shouldIncludeChapter "Algo".data "aa b".data "x.html".data "c1".data 2 = true ∧
    (2 ≤ (pySplit "aa b".data).length ∧ (0 < 2 → "aa b".data ≠ ([] : Str))) ∧
    (2 ≤ (pySplit (⟨"c1".data, "c1.html".data, "c1".data,
        "hola mundo de texto real".data⟩ : Chapter).text).length ∧
      (0 < 2 → (⟨"c1".data, "c1.html".data, "c1".data,
        "hola mundo de texto real".data⟩ : Chapter).text ≠ ([] : Str))) := by
  refine ⟨?_, ?_, ?_, ?_⟩
  · exact (classifier_boundary "Algo".data "aa b".data "x.html".data "c1".data 3).1
      (by decide)
  · exact (classifier_boundary "Algo".data "aa b".data "x.html".data "c1".data 2).2.1
      (by decide) (by decide) (by decide)
  · exact (classifier_boundary "Algo".data "aa b".data "x.html".data "c1".data 2).2.2.1
      (by decide)
  · exact (classifier_boundary "Algo".data "hola mundo de texto real".data
      "x.html".data "c1".data 2).2.2.2
      c6Epub ⟨"c1".data, "c1.html".data, "c1".data, "hola mundo de texto real".data⟩
      (by decide)

/-- Claim C7 (code bug): because the source list `NON_CHAPTER_PATH_HINTS`
misses two commas, `"appendix"` (and `"dedication"`, `"bibliograph"`,
`"epígrafe"`) are not elements of the hint list — they were concatenated
into `"dedicationappendix"` and `"epígrafebibliograph"`.  An item whose
href and idref both contain `"appendix"` is therefore not matched by the
path-hint check and is accepted by the classifier, against the claimed
hint list. -/
theorem appendix_hint_not_rejected :
    looksLikeNonChapterPath "appendix.xhtml".data "appendix".data = false ∧
    shouldIncludeChapter "Relato".data c7Text "appendix.xhtml".data "appendix".data 5 = true ∧
    "dedicationappendix".data ∈ NON_CHAPTER_PATH_HINTS ∧
    "appendix".data ∉ NON_CHAPTER_PATH_HINTS ∧
    "dedication".data ∉ NON_CHAPTER_PATH_HINTS := by
  refine ⟨by decide, by decide, by decide, by decide, by decide⟩

/-- A count of at least two over a duplicate-free list is the same as two
distinct elements satisfying the predicate. -/
theorem two_le_countP_iff {α : Type} (l : List α) (p : α → Bool) (hnd : l.Nodup) :
    2 ≤ l.countP p ↔ ∃ a ∈ l, ∃ b ∈ l, a ≠ b ∧ p a = true ∧ p b = true := by
  rw [List.countP_eq_length_filter]
  constructor
  · intro h2
    cases hf : l.filter p with
    | nil => rw [hf] at h2; simp at h2
    | cons x t2 =>
      cases t2 with
      | nil => rw [hf] at h2; simp at h2
      | cons y t =>
        have hx : x ∈ l.filter p := by rw [hf]; exact List.mem_cons_self _ _
        have hy : y ∈ l.filter p := by
          rw [hf]; exact List.mem_cons_of_mem _ (List.mem_cons_self _ _)
        have hnf := hnd.filter p
        rw [hf] at hnf
        have hxy : x ≠ y := by
          intro he
          exact (List.nodup_cons.mp hnf).1 (he ▸ List.mem_cons_self y t)
        exact ⟨x, (List.mem_filter.mp hx).1, y, (List.mem_filter.mp hy).1, hxy,
          (List.mem_filter.mp hx).2, (List.mem_filter.mp hy).2⟩
  · rintro ⟨a, ha, b, hb, hab, hpa, hpb⟩
    have ha' : a ∈ l.filter p := List.mem_filter.mpr ⟨ha, hpa⟩
    have hb' : b ∈ l.filter p := List.mem_filter.mpr ⟨hb, hpb⟩
    cases hf : l.filter p with
    | nil => rw [hf] at ha'; simp at ha'
    | cons x t2 =>
      cases t2 with
      | nil =>
        rw [hf] at ha' hb'
        simp at ha' hb'
        exact absurd (ha'.trans hb'.symm) hab
      | cons y t => simp only [List.length_cons]; omega

/-- Claim C8 counterexample: the single line `depósito legal` triggers the
code's heuristic (the entries `"deposito legal"` and `"depósito legal"`
normalize identically, so one occurrence counts twice), while only one
keyword of the claim's fixed set appears in the text. -/
theorem copyright_single_keyword_counterexample :
    looksLikeCopyrightOrImprint c8Text = true ∧ specCopyrightHits c8Text = 1 := by
  refine ⟨by decide, by decide⟩

/-- Claim C8 (amended): the heuristic matches exactly when at least two
distinct entries of the code's nine-entry keyword list (two of which,
`deposito legal` and `depósito legal`, normalize to the same string) are
substrings of the normalized join of the non-blank lines among the first
80 raw lines of the text. -/
theorem copyright_heuristic_two_entries (text : Str) :
    looksLikeCopyrightOrImprint text = true ↔
      ∃ k₁ ∈ copyrightKeywords, ∃ k₂ ∈ copyrightKeywords, k₁ ≠ k₂ ∧
        strContains (copyrightTop text) (pyNorm k₁) = true ∧
        strContains (copyrightTop text) (pyNorm k₂) = true := by
  have hnd : copyrightKeywords.Nodup := by decide
  simp only [looksLikeCopyrightOrImprint, decide_eq_true_eq]
  exact two_le_countP_iff copyrightKeywords
    (fun k => strContains (copyrightTop text) (pyNorm k)) hnd

/-- `intercalate` over a five-element list. -/
theorem intercalate_five (s a b c d e : Str) :
    List.intercalate s [a, b, c, d, e] = a ++ s ++ b ++ s ++ c ++ s ++ d ++ s ++ e := by
  simp [List.intercalate, List.append_assoc]

/-- `intercalate` over an eight-element list. -/
theorem intercalate_eight (s a b c d e f g h : Str) :
    List.intercalate s [a, b, c, d, e, f, g, h] =
      a ++ s ++ b ++ s ++ c ++ s ++ d ++ s ++ e ++ s ++ f ++ s ++ g ++ s ++ h := by
  simp [List.intercalate, List.append_assoc]

/-- `intercalate` over an eleven-element list. -/
theorem intercalate_eleven (s a b c d e f g h i j k : Str) :
    List.intercalate s [a, b, c, d, e, f, g, h, i, j, k] =
      a ++ s ++ b ++ s ++ c ++ s ++ d ++ s ++ e ++ s ++ f ++ s ++ g ++ s ++ h ++ s ++
        i ++ s ++ j ++ s ++ k := by
  simp [List.intercalate, List.append_assoc]

/-- Claim C2 (amended): a text of at most `headWords + tailWords + 250`
words is returned unchanged; a longer text compresses to a string that
starts with the `[INICIO]` marker followed by exactly the first
`headWords` words and ends with the `[FINAL]` marker followed by exactly
the last `tailWords` words (each word sequence re-joined with single
spaces).  The length clause of the original claim is dropped: the output
can be longer than the input (see the counterexample). -/
theorem compress_preserves_head_tail (text : Str) (h t msl mll : Nat) (im : Bool) :
    ((pySplit text).length ≤ h + t + 250 → compressChapter text h t msl mll im = text) ∧
    (h + t + 250 < (pySplit text).length →
      ∃ mid, compressChapter text h t msl mll im =
        inicioMark ++ nlStr ++ compressHead (pySplit text) h ++ nlStr ++ mid ++
          nlStr ++ finalMark ++ nlStr ++ compressTail (pySplit text) t) := by
  constructor
  · intro hle
    simp only [compressChapter]
    rw [if_pos hle]
  · intro hgt
    simp only [compressChapter]
    rw [if_neg (by omega)]
    by_cases hm : (if im then sampleMiddle text 12 8 40 else ([] : Str)) = []
    · by_cases hs : pyJoin nlStr (signalLines msl mll text) = []
      · rw [if_pos hm, if_pos hs]
        refine ⟨[], ?_⟩
        simp only [pyJoin, List.cons_append, List.nil_append, List.append_nil]
        rw [intercalate_five]
        simp [List.append_assoc]
      · rw [if_pos hm, if_neg hs]
        refine ⟨nlStr ++ senalesMark ++ nlStr ++ pyJoin nlStr (signalLines msl mll text) ++
          nlStr, ?_⟩
        simp only [pyJoin, List.cons_append, List.nil_append, List.append_nil]
        rw [intercalate_eight]
        simp [List.append_assoc]
    · by_cases hs : pyJoin nlStr (signalLines msl mll text) = []
      · rw [if_neg hm, if_pos hs]
        refine ⟨nlStr ++ medioMark ++ nlStr ++
          (if im then sampleMiddle text 12 8 40 else ([] : Str)) ++ nlStr, ?_⟩
        simp only [pyJoin, List.cons_append, List.nil_append, List.append_nil]
        rw [intercalate_eight]
        simp [List.append_assoc]
      · rw [if_neg hm, if_neg hs]
        refine ⟨nlStr ++ medioMark ++ nlStr ++
          (if im then sampleMiddle text 12 8 40 else ([] : Str)) ++ nlStr ++ nlStr ++
          senalesMark ++ nlStr ++ pyJoin nlStr (signalLines msl mll text) ++ nlStr, ?_⟩
        simp only [pyJoin, List.cons_append, List.nil_append, List.append_nil]
        rw [intercalate_eleven]
        simp [List.append_assoc]

/-- Claim C2 counterexample: a 253-word single-line text compressed with
`headWords = tailWords = 1` (253 > 1 + 1 + 250) produces an output longer
than the input — the middle sample duplicates the whole single paragraph,
so "the output is never longer than the input" fails. -/
theorem compress_output_longer_counterexample :
    1 + 1 + 250 < (pySplit c2Text).length ∧
    c2Text.length < (compressChapter c2Text 1 1 18 220 true).length := by
  refine ⟨by decide, by decide⟩

/-- Witness for C2 (amended): the short text is returned unchanged; the
253-word text decomposes into marked head, middle, and tail sections. -/
theorem compress_preserves_head_tail_witness :
    compressChapter "corto".data 1 1 18 220 true = "corto".data ∧
    (1 + 1 + 250 < (pySplit c2Text).length ∧
      ∃ mid, compressChapter c2Text 1 1 18 220 true =
        inicioMark ++ nlStr ++ compressHead (pySplit c2Text) 1 ++ nlStr ++ mid ++
          nlStr ++ finalMark ++ nlStr ++ compressTail (pySplit c2Text) 1) := by
  refine ⟨(compress_preserves_head_tail "corto".data 1 1 18 220 true).1 (by decide),
    by decide, (compress_preserves_head_tail c2Text 1 1 18 220 true).2 (by decide)⟩
